import Mathlib

/-!
Shallow embedding of the record-to-spreadsheet export engine of
go-excel-service: the schema extractor (`getFieldTags` in main.go,
`getHeaders` in the excelize variants) and the row projector
(`addRows` in the tealeg variants, `getRows` in the excelize variants),
together with the HTTP handler control flow the claims mention.

Go struct types are modelled by `GoType`/`GoFieldTy`, runtime values by
`GoValue`/`GoFieldVal`.  Struct tags are an association list of
(key, value) pairs; `reflect.StructTag.Get` is `tagGet`.  A field's
`CanInterface` is its `exported` flag; reflect's invalid `Value` is the
`GoValue.vInvalid` constructor.  Go's `%v` float formatting is not
reproduced exactly (floats are carried as rationals and rendered only
for integral values the way Go prints them); no claim depends on the
rendered text of a float or of a whole struct.
-/

/-- A Go type, as far as the reflection in this repository inspects it:
only the struct/pointer structure, field names, anonymity (embedding),
exportedness and struct tags matter to `getFieldTags`/`getHeaders`. -/
inductive GoType where
  | intT
  | float32T
  | stringT
  | boolT
  | ptrT (elem : GoType)
  | structT (fields : List (String × Bool × Bool × List (String × String) × GoType))
deriving Repr

/-- One declared struct field, as the tuple
(name, `Anonymous` i.e. embedded, exported, struct tags, field type). -/
abbrev GoFieldTy := String × Bool × Bool × List (String × String) × GoType

/-- Go's `reflect.StructTag.Get key`: the value of the first tag with that
key, or the empty string when the key is absent. -/
def tagGet (tags : List (String × String)) (key : String) : String :=
  match tags.find? (fun p => p.1 = key) with
  | some p => p.2
  | none => ""

/-- The test `t.Kind() == reflect.Struct`. -/
def GoType.isStructKind : GoType → Bool
  | .structT _ => true
  | _ => false

/-- The step `t.Kind() == reflect.Ptr ? t.Elem() : t` — the one pointer
unwrap both extractors perform at entry. -/
def GoType.unwrapPtr : GoType → GoType
  | .ptrT e => e
  | t => t

mutual

/-- The field-iteration loop of main.go `getFieldTags` (lines 153-166)
on a struct type: a field that is an embedded struct
(`field.Type.Kind() == reflect.Struct && field.Anonymous`) is replaced
in place by its recursively extracted tags (the recursive
`getFieldTags(reflect.New(field.Type).Interface(), tagName)` call,
whose pointer argument is unwrapped back to the field type on entry);
any other field contributes its tag when the tag is non-empty and is
skipped otherwise.  Non-struct types have no fields (Go's `NumField`
is only ever reached with a struct here, call sites pass structs). -/
def structTags (tagName : String) : GoType → List String
  | .structT fs => fieldListTags tagName fs
  | _ => []

def fieldListTags (tagName : String) : List GoFieldTy → List String
  | [] => []
  | (_, anon, _, tags, ty) :: fs =>
      (if anon && ty.isStructKind then structTags tagName ty
       else if tagGet tags tagName ≠ "" then [tagGet tags tagName] else [])
      ++ fieldListTags tagName fs

end

/-- main.go `getFieldTags(model, tagName)` (lines 141-168): fails on a
nil type descriptor, unwraps one pointer, then collects tags in
declaration order, flattening embedded structs depth-first. -/
def getFieldTags (model : Option GoType) (tagName : String) :
    Except String (List String) :=
  match model with
  | none => .error "nil model type"
  | some t => .ok (structTags tagName t.unwrapPtr)

mutual

/-- The field-iteration loop of `getHeaders` in the excelize variants
(part_001 lines 150-161, part_002 lines 110-121): identical to
`getFieldTags` except that a non-embedded field's tag is appended
unconditionally, even when the tag is absent (empty string).
part_001 reads the "xlsx" tag, part_002 the "json" tag; the key is
the `tagName` parameter here. -/
def structHeaders (tagName : String) : GoType → List String
  | .structT fs => fieldListHeaders tagName fs
  | _ => []

def fieldListHeaders (tagName : String) : List GoFieldTy → List String
  | [] => []
  | (_, anon, _, tags, ty) :: fs =>
      (if anon && ty.isStructKind then structHeaders tagName ty
       else [tagGet tags tagName])
      ++ fieldListHeaders tagName fs

end

/-- Function `getHeaders(model)` of the excelize variants: nil check, pointer
unwrap, then the header loop. -/
def getHeaders (model : Option GoType) (tagName : String) :
    Except String (List String) :=
  match model with
  | none => .error "nil model type"
  | some t => .ok (structHeaders tagName t.unwrapPtr)

/-- A Go runtime value, as far as the projectors inspect one.
`vInvalid` is reflect's zero `Value` (`!field.IsValid()`); a struct
value carries its fields as (name, `CanInterface`, value) triples. -/
inductive GoValue where
  | vInt (n : Int)
  | vFloat (q : Rat)
  | vString (s : String)
  | vBool (b : Bool)
  | vNilPtr
  | vInvalid
  | vStruct (fields : List (String × Bool × GoValue))
deriving Repr

/-- The field list of a struct value: (name, `CanInterface`, value). -/
abbrev GoStructVal := List (String × Bool × GoValue)

/-- Go's `reflect.Value.IsValid`. -/
def GoValue.isValid : GoValue → Bool
  | .vInvalid => false
  | _ => true

/-- The test `v.Kind() == reflect.Struct` on a value. -/
def GoValue.isStructKind : GoValue → Bool
  | .vStruct _ => true
  | _ => false

mutual

/-- Go's `fmt.Sprintf("%v", v)` as the projectors use it.  Ints, strings,
bools and nil pointers render as Go prints them; a float is rendered
as Go only when integral (Go's `%g` shortest-form formatting is not
reproduced for other rationals — no claim depends on it); a struct
renders as its brace-wrapped space-separated fields. -/
def render : GoValue → String
  | .vInt n => toString n
  | .vFloat q => if q.den = 1 then toString q.num
                 else toString q.num ++ "/" ++ toString q.den
  | .vString s => s
  | .vBool b => if b then "true" else "false"
  | .vNilPtr => "<nil>"
  | .vInvalid => "<invalid Value>"
  | .vStruct fs => "\x7b" ++ String.intercalate " " (renderFields fs) ++ "\x7d"

def renderFields : List (String × Bool × GoValue) → List String
  | [] => []
  | (_, _, v) :: fs => render v :: renderFields fs

end

/-- The inner nested-struct loop of main.go `addRows` (lines 196-202):
one stringified cell per `CanInterface` (exported) nested field,
nothing for an unexported one. -/
def nestedCells : GoStructVal → List GoValue
  | [] => []
  | (_, canInt, v) :: fs =>
      (if canInt then [GoValue.vString (render v)] else []) ++ nestedCells fs

/-- The per-item field loop of main.go `addRows` (lines 186-209),
with `i` the current field index: an invalid field aborts with
`"invalid field at position i"`; a struct-kind field that
`CanInterface` is expanded by `nestedCells`; otherwise a field that
`CanInterface` yields one cell holding `fmt.Sprintf("%v", ...)` of its
value, and an unexported field yields nothing.  Cells are tealeg
`cell.Value` strings, kept as `GoValue.vString`. -/
def addRowsItem : Nat → GoStructVal → Except String (List GoValue)
  | _, [] => .ok []
  | i, (_, canInt, v) :: fs =>
      if !v.isValid then .error ("invalid field at position " ++ toString i)
      else
        let cells :=
          if v.isStructKind && canInt then
            nestedCells (match v with | .vStruct nfs => nfs | _ => [])
          else if canInt then [GoValue.vString (render v)] else []
        (addRowsItem (i + 1) fs).map (cells ++ ·)

/-- main.go `addRows(sheet, data)` (lines 178-212), as the list of data
rows it appends to the sheet: one row per item in order, failing on
the first invalid field. -/
def addRows : List GoStructVal → Except String (List (List GoValue))
  | [] => .ok []
  | item :: rest =>
      match addRowsItem 0 item with
      | .error e => .error e
      | .ok row =>
          match addRows rest with
          | .error e => .error e
          | .ok rows => .ok (row :: rows)

/-- The per-item field loop of `getRows` in the excelize variants
(part_001 lines 176-183, part_002 lines 136-143): an invalid field at
position `i` aborts with `"invalid field at position i"`; otherwise the
field's value itself (`field.Interface()`) is the cell — no
stringification. -/
def getRowsItem : Nat → GoStructVal → Except String (List GoValue)
  | _, [] => .ok []
  | i, (_, _, v) :: fs =>
      if !v.isValid then .error ("invalid field at position " ++ toString i)
      else (getRowsItem (i + 1) fs).map (v :: ·)

/-- Function `getRows(data)` of the excelize variants (part_001 lines 166-189,
part_002 lines 126-149): one row of typed cells per record in input
order; the first invalid field makes the whole call return the error
and no rows. -/
def getRows : List GoStructVal → Except String (List (List GoValue))
  | [] => .ok []
  | item :: rest =>
      match getRowsItem 0 item with
      | .error e => .error e
      | .ok row =>
          match getRows rest with
          | .error e => .error e
          | .ok rows => .ok (row :: rows)

/-- The tealeg `addHeaders(sheet, tags)` row (main.go lines 170-176,
part_001 lines 403-409): one string cell per tag. -/
def addHeaders (tags : List String) : List GoValue :=
  tags.map GoValue.vString

/-- One row of the NetflixShow tealeg `addRows` (part_001 lines
413-419, part_002 lines 392-397): every field becomes a stringified
cell, no validity or exportedness check. -/
def rowCells : GoStructVal → List GoValue
  | [] => []
  | (_, _, v) :: fs => GoValue.vString (render v) :: rowCells fs

/-- The sequential NetflixShow `addRows(sheet, shows)` (part_001 lines
411-420, part_002 lines 390-399): rows appended one per show, in the
order of the input slice.  (The `addRowsWithGorutines` variant next to
it writes the same cells from unsynchronized goroutines and is unused
by the handler.) -/
def addRowsShows : List GoStructVal → List (List GoValue)
  | [] => []
  | item :: rest => rowCells item :: addRowsShows rest

/-- Go's `time.Time` as reflection sees it: a struct whose three fields
(`wall uint64`, `ext int64`, `loc *time.Location`) are all unexported
and untagged. -/
def timeTimeTy : GoType :=
  .structT [("wall", false, false, [], .intT),
            ("ext", false, false, [], .intT),
            ("loc", false, false, [], .ptrT (.structT []))]

/-- The declared fields of the `Salary` struct (main.go lines 36-41,
part_001 lines 33-38). -/
def salaryFields : List GoFieldTy :=
  [("EmployeeId", false, true, [("xlsx", "Employee ID")], .intT),
   ("Amount", false, true, [("xlsx", "Amount")], .float32T),
   ("FromDate", false, true, [("xlsx", "From Date")], timeTimeTy),
   ("ToDate", false, true, [("xlsx", "To Date")], timeTimeTy)]

/-- The `Salary` struct type. -/
def salaryTy : GoType := .structT salaryFields

/-- The `Title` struct (main.go lines 47-52). -/
def titleTy : GoType :=
  .structT [("EmployeeId", false, true, [("xlsx", "Employee ID")], .intT),
            ("Title", false, true, [("xlsx", "Title")], .stringT),
            ("FromDate", false, true, [("xlsx", "From Date")], timeTimeTy),
            ("ToDate", false, true, [("xlsx", "To Date")], timeTimeTy)]

/-- The `Employee` struct (main.go lines 58-65). -/
def employeeTy : GoType :=
  .structT [("Id", false, true, [("xlsx", "ID")], .intT),
            ("BirthDate", false, true, [("xlsx", "Birth Date")], timeTimeTy),
            ("FirstName", false, true, [("xlsx", "First Name")], .stringT),
            ("LastName", false, true, [("xlsx", "Last Name")], .stringT),
            ("Gender", false, true, [("xlsx", "Gender")], .stringT),
            ("HireDate", false, true, [("xlsx", "Hire Date")], timeTimeTy)]

/-- The `EmployeeSalary` struct (main.go lines 67-71): three embedded
(anonymous) untagged struct fields. -/
def employeeSalaryTy : GoType :=
  .structT [("Employee", true, true, [], employeeTy),
            ("Salary", true, true, [], salaryTy),
            ("Title", true, true, [], titleTy)]

/-- The declared fields of the `NetflixShow` struct (main.go lines
73-86 and the part_001 / part_002 copies). -/
def netflixFields : List GoFieldTy :=
  [("ShowID", false, true, [("xlsx", "Id")], .stringT),
   ("Type", false, true, [("xlsx", "Type")], .stringT),
   ("Title", false, true, [("xlsx", "Title")], .stringT),
   ("Director", false, true, [("xlsx", "Director")], .stringT),
   ("CastMembers", false, true, [("xlsx", "Cast Members")], .stringT),
   ("Country", false, true, [("xlsx", "Country")], .stringT),
   ("DateAdded", false, true, [("xlsx", "Date Added")], timeTimeTy),
   ("ReleaseYear", false, true, [("xlsx", "Release Year")], .intT),
   ("Rating", false, true, [("xlsx", "Rating")], .stringT),
   ("Duration", false, true, [("xlsx", "Duration")], .stringT),
   ("ListedIn", false, true, [("xlsx", "Listed In")], .stringT),
   ("Description", false, true, [("xlsx", "Description")], .stringT)]

/-- The `NetflixShow` struct type. -/
def netflixShowTy : GoType := .structT netflixFields

/-- A concrete `time.Time` value: all three fields unexported. -/
def timeVal (wall ext : Int) : GoValue :=
  .vStruct [("wall", false, .vInt wall),
            ("ext", false, .vInt ext),
            ("loc", false, .vNilPtr)]

/-- A concrete `Salary` value. -/
def salaryVal (id : Int) (amount : Rat) (fromD toD : GoValue) : GoStructVal :=
  [("EmployeeId", true, .vInt id),
   ("Amount", true, .vFloat amount),
   ("FromDate", true, fromD),
   ("ToDate", true, toD)]

/-- The grid-building pipeline of the main.go `/download` handler
(lines 257-270) for any model type: header cells from
`getFieldTags(model, tagName)` via `addHeaders`, then the `addRows`
data rows; any error aborts with no grid. -/
def projectGrid (model : Option GoType) (tagName : String)
    (data : List GoStructVal) : Except String (List (List GoValue)) :=
  match getFieldTags model tagName with
  | .error e => .error e
  | .ok tags =>
      match addRows data with
      | .error e => .error e
      | .ok rows => .ok (addHeaders tags :: rows)

/-- The main.go `/download` handler's grid: `projectGrid` at the
`Salary` model type it serves. -/
def mainHandlerGrid (data : List GoStructVal) :
    Except String (List (List GoValue)) :=
  projectGrid (some salaryTy) "xlsx" data

/-- The grid assembled by part_001 / part_002 `downloadFile` (part_001
lines 227-266, part_002 lines 236-275): headers are taken from
`getHeaders(data[0])` — an index-out-of-range panic when `data` is
empty, modelled as an error — then `getRows(data)` rows are placed
under them.  `model` is the (static) element type of `data`. -/
def downloadFile (model : Option GoType) (tagName : String)
    (data : List GoStructVal) : Except String (List (List GoValue)) :=
  if data.isEmpty then .error "panic: index out of range"
  else
    match getHeaders model tagName with
    | .error e => .error e
    | .ok headers =>
        match getRows data with
        | .error e => .error e
        | .ok rows => .ok (headers.map GoValue.vString :: rows)

/-- An HTTP response as the handlers produce one: a status code and the
short `http.Error` message (or an attachment body). -/
structure HttpResponse where
  status : Nat
  body : String
deriving Repr

/-- What a run of the part_002 `/download` handler did: the response,
whether `getData` (the upstream fetch) was attempted, and whether
`downloadFile` (the export) was attempted. -/
structure HandlerOutcome where
  response : HttpResponse
  fetchAttempted : Bool
  exportAttempted : Bool
deriving Repr

/-- The part_002 `/download` handler (lines 277-296).
`convocationId` is `r.URL.Query().Get("convocationId")` — the empty
string when the query parameter is omitted.  An empty id answers
400 "Missing convocationId" before any fetch; a failed fetch answers
500 "Error fetching data"; otherwise `downloadFile` runs on the
fetched records (its element type is `DATA`, whose headers part_002
reads from the "json" tag — kept abstract as `model` here since the
claims about this handler do not depend on the `DATA` field list). -/
def downloadHandler (convocationId : String) (model : Option GoType)
    (fetchResult : Except String (List GoStructVal)) : HandlerOutcome :=
  if convocationId = "" then
    ⟨⟨400, "Missing convocationId"⟩, false, false⟩
  else
    match fetchResult with
    | .error _ => ⟨⟨500, "Error fetching data"⟩, true, false⟩
    | .ok data =>
        match downloadFile model "json" data with
        | .error _ => ⟨⟨500, "Error creating file"⟩, true, true⟩
        | .ok _ => ⟨⟨200, "attachment"⟩, true, true⟩

/-- The header row of the second part_002 handler's `addHeaders`
(lines 379-388): one cell per declared field holding its "xlsx" tag
(no flattening, no skipping). -/
def addHeadersModel : GoType → List GoValue
  | .structT fs => fs.map fun f => GoValue.vString (tagGet f.2.2.2.1 "xlsx")
  | _ => []

/-- The grid produced by the part_002 `/export` handler (lines
406-431) over the full `netflix_shows` table: the fetch runs with
`Limit(10)`, i.e. SQL `LIMIT 10`, so at most the first 10 records of
the table are retrieved, then a header row and the sequential
`addRows` rows are written. -/
def exportHandlerGrid (table : List GoStructVal) : List (List GoValue) :=
  let shows := table.take 10
  addHeadersModel netflixShowTy :: addRowsShows shows

/-- A memo table for schema extraction: what a per-type cache would
return for a type under a tag key, `none` when the type is not cached.
(`getFieldTags` depends only on its arguments, so such a cache is
sound exactly when every hit reproduces `getFieldTags`.) -/
def MemoCache := String → GoType → Option (List String)

/-- Schema extraction through a memo table: answer from the cache on a
hit, recompute on a miss. -/
def getFieldTagsMemo (cache : MemoCache) (model : Option GoType)
    (tagName : String) : Except String (List String) :=
  match model with
  | none => .error "nil model type"
  | some t =>
      match cache tagName t with
      | some tags => .ok tags
      | none => getFieldTags (some t) tagName

/-- Soundness of a memo table: every hit is the directly extracted
schema. -/
def MemoCache.Sound (cache : MemoCache) : Prop :=
  ∀ tagName t tags, cache tagName t = some tags →
    getFieldTags (some t) tagName = .ok tags

/-- A field that the extractor treats as a plain tagged leaf: not an
embedded struct, and its tag under `tagName` is present. -/
def ScalarTagged (tagName : String) (f : GoFieldTy) : Prop :=
  (f.2.1 && (f.2.2.2.2).isStructKind) = false ∧ tagGet f.2.2.2.1 tagName ≠ ""

instance (tagName : String) (f : GoFieldTy) :
    Decidable (ScalarTagged tagName f) :=
  inferInstanceAs (Decidable (_ ∧ _))

/-- The index of the first record containing an unresolvable (invalid)
field, the way the claims speak of "the record index". -/
def firstInvalidRecord (data : List GoStructVal) : Option Nat :=
  data.findIdx? fun item => item.any fun f => !(f.2.2).isValid

theorem fieldListTags_append (tagName : String) (xs ys : List GoFieldTy) :
    fieldListTags tagName (xs ++ ys)
      = fieldListTags tagName xs ++ fieldListTags tagName ys := by
  induction xs with
  | nil => rfl
  | cons f fs ih =>
      obtain ⟨nm, anon, exp, tags, ty⟩ := f
      simp [fieldListTags, ih]

theorem fieldListTags_of_scalarTagged (tagName : String)
    (fs : List GoFieldTy) (h : ∀ f ∈ fs, ScalarTagged tagName f) :
    fieldListTags tagName fs = fs.map fun f => tagGet f.2.2.2.1 tagName := by
  induction fs with
  | nil => rfl
  | cons f fs ih =>
      obtain ⟨nm, anon, exp, tags, ty⟩ := f
      obtain ⟨h1, h2⟩ := h _ (List.mem_cons_self _ _)
      simp only [List.map_cons]
      simp only [fieldListTags, h1, if_false, Bool.false_eq_true]
      rw [if_pos h2, ih fun g hg => h g (List.mem_cons_of_mem _ hg)]
      rfl

theorem getRowsItem_of_valid (item : GoStructVal) (i : Nat)
    (h : ∀ f ∈ item, (f.2.2).isValid = true) :
    getRowsItem i item = .ok (item.map fun f => f.2.2) := by
  induction item generalizing i with
  | nil => rfl
  | cons f fs ih =>
      obtain ⟨nm, c, v⟩ := f
      have hv : v.isValid = true := h _ (List.mem_cons_self _ _)
      simp [getRowsItem, hv, ih (i + 1) fun g hg => h g (List.mem_cons_of_mem _ hg),
        Except.map]

theorem getRowsItem_first_invalid (fpre : GoStructVal) (nm : String)
    (c : Bool) (frest : GoStructVal) (i : Nat)
    (h : ∀ f ∈ fpre, (f.2.2).isValid = true) :
    getRowsItem i (fpre ++ (nm, c, GoValue.vInvalid) :: frest)
      = .error ("invalid field at position " ++ toString (i + fpre.length)) := by
  induction fpre generalizing i with
  | nil => simp [getRowsItem, GoValue.isValid]
  | cons f fs ih =>
      obtain ⟨nm', c', v⟩ := f
      have hv : v.isValid = true := h _ (List.mem_cons_self _ _)
      have harith : (i + 1) + fs.length = i + (fs.length + 1) := by omega
      simp [getRowsItem, hv, ih (i + 1) fun g hg => h g (List.mem_cons_of_mem _ hg),
        Except.map, harith]

theorem addRowsShows_length (shows : List GoStructVal) :
    (addRowsShows shows).length = shows.length := by
  induction shows with
  | nil => rfl
  | cons s ss ih => simp [addRowsShows, ih]

/-- Claim C1 (refuted by the code, exhibiting the defect): the grid the
main.go `/download` pipeline builds for a single `Salary` record is
ragged.  `getFieldTags` emits one header per declared field (4 of
them, treating the non-embedded `time.Time` fields as tagged leaves),
but `addRows` expands every struct-kind field in place and the
`time.Time` fields consist solely of unexported fields, so they
contribute zero cells: the per-row cell counts of the grid are
`[4, 2]` — a 4-cell header over a 2-cell data row. -/
theorem c1_salary_export_row_is_ragged :
    (mainHandlerGrid [salaryVal 1 1000 (timeVal 5 7) (timeVal 5 7)]).map
        (fun grid => grid.map List.length) = .ok [4, 2] := by
  rfl

/-- Claim C4: on an empty record sequence the projector pipeline
returns a header-only grid — one header row built from the extracted
schema, zero data rows — and no error; the excelize `getRows` likewise
returns zero rows without error. -/
theorem c4_empty_input_yields_header_only_grid (t : GoType)
    (tagName : String) :
    projectGrid (some t) tagName []
      = .ok [addHeaders (structTags tagName t.unwrapPtr)]
    ∧ getRows [] = .ok [] :=
  ⟨rfl, rfl⟩

/-- Claim C9: when the `convocationId` query parameter is omitted
(`r.URL.Query().Get` returns the empty string), the part_002
`/download` handler answers HTTP 400 with the short message
"Missing convocationId" and attempts neither the upstream fetch nor
the export, whatever the fetch would have returned. -/
theorem c9_missing_param_answers_400 (model : Option GoType)
    (fetchResult : Except String (List GoStructVal)) :
    downloadHandler "" model fetchResult
      = ⟨⟨400, "Missing convocationId"⟩, false, false⟩ :=
  rfl

/-- Claim C10: the part_002 `/export` handler fetches with `Limit(10)`,
so the grid it writes holds at most 10 data rows no matter how many
records the `netflix_shows` table contains — exactly
`min 10 (table length)` of them. -/
theorem c10_export_data_rows_capped_at_ten (table : List GoStructVal) :
    (exportHandlerGrid table).tail.length = min 10 table.length
    ∧ (exportHandlerGrid table).tail.length ≤ 10 := by
  have h : (exportHandlerGrid table).tail = addRowsShows (table.take 10) := rfl
  constructor
  · rw [h, addRowsShows_length, List.length_take]
  · rw [h, addRowsShows_length, List.length_take]
    exact Nat.min_le_left _ _

/-- Claim C2: when a record type embeds a nested record type whose M
fields are all plain tagged leaves, the extracted schema is the
parent's fields with the M child display names spliced in place at the
embedding position, preserving the relative declaration order of both
parent and child fields. -/
theorem c2_embedded_schema_spliced_in_place (tagName nm : String)
    (exp : Bool) (etags : List (String × String))
    (pre post cfs : List GoFieldTy)
    (hall : ∀ f ∈ cfs, ScalarTagged tagName f) :
    fieldListTags tagName
        (pre ++ (nm, true, exp, etags, GoType.structT cfs) :: post)
      = fieldListTags tagName pre
        ++ (cfs.map fun f => tagGet f.2.2.2.1 tagName)
        ++ fieldListTags tagName post
    ∧ (cfs.map fun f => tagGet f.2.2.2.1 tagName).length = cfs.length := by
  refine ⟨?_, by simp⟩
  rw [fieldListTags_append]
  simp only [fieldListTags, GoType.isStructKind, Bool.and_true, if_true]
  simp [structTags, fieldListTags_of_scalarTagged _ _ hall]

/-- Witness for C2 at the `EmployeeSalary` composite: splicing the
`Salary` sub-record's 4 columns between the flattened `Employee` and
`Title` columns, exactly as the `EmployeeSalary` declaration embeds
them. -/
theorem c2_embedded_schema_spliced_in_place_witness :
    (∀ f ∈ salaryFields, ScalarTagged "xlsx" f)
    ∧ (fieldListTags "xlsx"
          ([("Employee", true, true, [], employeeTy)]
            ++ ("Salary", true, true, [], GoType.structT salaryFields)
            :: [("Title", true, true, [], titleTy)])
        = fieldListTags "xlsx" [("Employee", true, true, [], employeeTy)]
          ++ (salaryFields.map fun f => tagGet f.2.2.2.1 "xlsx")
          ++ fieldListTags "xlsx" [("Title", true, true, [], titleTy)]
      ∧ (salaryFields.map fun f => tagGet f.2.2.2.1 "xlsx").length
          = salaryFields.length) :=
  ⟨by decide,
   c2_embedded_schema_spliced_in_place "xlsx" "Salary" true []
     [("Employee", true, true, [], employeeTy)]
     [("Title", true, true, [], titleTy)] salaryFields (by decide)⟩

/-- Claim C6: on a record type whose N declared fields are all plain
tagged leaves (no embedded records), the extractor returns exactly N
display names, in declaration order, each the field's declared
display-name annotation. -/
theorem c6_flat_schema_in_declaration_order (tagName : String)
    (fs : List GoFieldTy) (h : ∀ f ∈ fs, ScalarTagged tagName f) :
    getFieldTags (some (GoType.structT fs)) tagName
      = .ok (fs.map fun f => tagGet f.2.2.2.1 tagName)
    ∧ (fs.map fun f => tagGet f.2.2.2.1 tagName).length = fs.length := by
  refine ⟨?_, by simp⟩
  have e : getFieldTags (some (GoType.structT fs)) tagName
      = .ok (fieldListTags tagName fs) := rfl
  rw [e, fieldListTags_of_scalarTagged _ _ h]

/-- Witness for C6 at the 12-field `NetflixShow` record type. -/
theorem c6_flat_schema_in_declaration_order_witness :
    (∀ f ∈ netflixFields, ScalarTagged "xlsx" f)
    ∧ (getFieldTags (some (GoType.structT netflixFields)) "xlsx"
        = .ok (netflixFields.map fun f => tagGet f.2.2.2.1 "xlsx")
      ∧ (netflixFields.map fun f => tagGet f.2.2.2.1 "xlsx").length
          = netflixFields.length) :=
  ⟨by decide,
   c6_flat_schema_in_declaration_order "xlsx" netflixFields (by decide)⟩

/-- A fully populated memo table: every type is cached with exactly
what extraction computes. -/
def fullCache : MemoCache := fun tagName t =>
  some (structTags tagName t.unwrapPtr)

theorem fullCache_sound : fullCache.Sound := by
  intro tagName t tags h
  simp only [fullCache, Option.some.injEq] at h
  simp [getFieldTags, h]

/-- Claim C7: schema extraction is a pure function of the type
descriptor — two calls on the same descriptor are identical (in this
embedding that is definitional) — and it is safe to memoize per
distinct type: extraction through any sound per-type cache agrees with
direct extraction on every descriptor. -/
theorem c7_extraction_deterministic_and_memoizable (cache : MemoCache)
    (hc : cache.Sound) (model : Option GoType) (tagName : String) :
    getFieldTags model tagName = getFieldTags model tagName
    ∧ getFieldTagsMemo cache model tagName = getFieldTags model tagName := by
  refine ⟨rfl, ?_⟩
  cases model with
  | none => rfl
  | some t =>
      simp only [getFieldTagsMemo]
      cases h : cache tagName t with
      | none => rfl
      | some tags => exact (hc tagName t tags h).symm

/-- Witness for C7: the fully populated cache is sound, and memoized
extraction at the `Salary` descriptor answers exactly what direct
extraction answers. -/
theorem c7_extraction_deterministic_and_memoizable_witness :
    fullCache.Sound
    ∧ (getFieldTags (some salaryTy) "xlsx"
          = getFieldTags (some salaryTy) "xlsx"
      ∧ getFieldTagsMemo fullCache (some salaryTy) "xlsx"
          = getFieldTags (some salaryTy) "xlsx") :=
  ⟨fullCache_sound,
   c7_extraction_deterministic_and_memoizable fullCache fullCache_sound
     (some salaryTy) "xlsx"⟩

/-- A well-formed two-field record used in the C3 batches. -/
def okRec : GoStructVal :=
  [("A", true, .vInt 1), ("B", true, .vString "x")]

/-- A record whose field at position 1 is unresolvable (an invalid
reflect value). -/
def badRec : GoStructVal :=
  [("A", true, .vInt 1), ("B", true, .vInvalid)]

/-- A 5-record batch whose unresolvable record sits at index 0. -/
def batchBadAt0 : List GoStructVal :=
  [badRec, okRec, okRec, okRec, okRec]

/-- The claim's concrete scenario: a 5-record batch whose unresolvable
record sits at index 2. -/
def batchBadAt2 : List GoStructVal :=
  [okRec, okRec, badRec, okRec, okRec]

/-- Claim C3 counterexample: on the claim's own scenario — a 5-record
batch with an unresolvable field in the record at index 2 — `getRows`
fails with `"invalid field at position 1"`, the *field* position only;
the batch with the same defect at record index 0 produces the
bit-identical error, so the error cannot identify the record index,
contradicting the claim that it identifies both. -/
theorem c3_error_does_not_identify_record_index :
    firstInvalidRecord batchBadAt0 = some 0
    ∧ firstInvalidRecord batchBadAt2 = some 2
    ∧ getRows batchBadAt0 = .error "invalid field at position 1"
    ∧ getRows batchBadAt2 = .error "invalid field at position 1" :=
  ⟨rfl, rfl, rfl, rfl⟩

/-- Claim C3 as amended: a batch containing a record with an
unresolvable field makes `getRows` fail with an error naming the field
position of the first unresolvable field (not the record index); no
grid is returned — the call yields the error instead of rows, so the
sink receives no data rows and the export is aborted. -/
theorem c3_unresolvable_field_aborts_with_field_position
    (pre post : List GoStructVal) (fpre frest : GoStructVal)
    (nm : String) (canInt : Bool)
    (hpre : ∀ r ∈ pre, ∀ f ∈ r, (f.2.2).isValid = true)
    (hfpre : ∀ f ∈ fpre, (f.2.2).isValid = true) :
    getRows (pre ++ (fpre ++ (nm, canInt, GoValue.vInvalid) :: frest) :: post)
      = .error ("invalid field at position " ++ toString fpre.length) := by
  induction pre with
  | nil =>
      have h := getRowsItem_first_invalid fpre nm canInt frest 0 hfpre
      simp only [Nat.zero_add] at h
      simp [getRows, h]
  | cons r rs ih =>
      have hr := hpre r (List.mem_cons_self _ _)
      have hrest := ih fun r' hr' => hpre r' (List.mem_cons_of_mem _ hr')
      simp [getRows, getRowsItem_of_valid r 0 hr, hrest]

/-- Witness for the amended C3 at the index-2 batch: two valid
records precede the bad one, whose first unresolvable field sits at
field position 1. -/
theorem c3_unresolvable_field_aborts_with_field_position_witness :
    (∀ r ∈ [okRec, okRec], ∀ f ∈ r, (f.2.2).isValid = true)
    ∧ (∀ f ∈ [("A", true, GoValue.vInt 1)], ((f.2.2) : GoValue).isValid = true)
    ∧ getRows ([okRec, okRec]
        ++ ([("A", true, GoValue.vInt 1)]
             ++ ("B", true, GoValue.vInvalid) :: []) :: [okRec, okRec])
      = .error ("invalid field at position "
          ++ toString (List.length [("A", true, GoValue.vInt 1)])) :=
  ⟨by decide, by decide,
   c3_unresolvable_field_aborts_with_field_position [okRec, okRec]
     [okRec, okRec] [("A", true, GoValue.vInt 1)] [] "B" true
     (by decide) (by decide)⟩

/-- Claim C5 counterexample: the main.go (tealeg) projector
force-stringifies scalar leaves.  For a `Salary` record with
`EmployeeId = 1` the projected cell is the string cell `"1"`
(`cell.Value = fmt.Sprintf("%v", ...)`), not the integer value
`vInt 1` the field carries, so the cell does not keep the field's
natural type. -/
theorem c5_tealeg_projector_stringifies_cells :
    addRowsItem 0 (salaryVal 1 1000 (timeVal 5 7) (timeVal 5 7))
      = .ok [.vString "1", .vString "1000"]
    ∧ (salaryVal 1 1000 (timeVal 5 7) (timeVal 5 7)).head?
        = some ("EmployeeId", true, .vInt 1)
    ∧ GoValue.vString "1" ≠ GoValue.vInt 1 :=
  ⟨rfl, rfl, fun h => GoValue.noConfusion h⟩

/-- Claim C5 as amended: the excelize-variant projector (`getRows`)
does carry every field's value in its natural type — each projected
row is exactly the record's field values, unconverted (integers stay
`vInt`, floats stay `vFloat`, timestamps stay the `time.Time` struct
value); the tealeg variant (`addRows` in main.go) instead renders
every cell to a string. -/
theorem c5_excelize_cells_keep_natural_type (item : GoStructVal)
    (h : ∀ f ∈ item, (f.2.2).isValid = true) :
    getRowsItem 0 item = .ok (item.map fun f => f.2.2) :=
  getRowsItem_of_valid item 0 h

/-- Witness for the amended C5 at a concrete `Salary` record: the
projected row is the typed values `[vInt 1, vFloat 1000, ...]`
themselves. -/
theorem c5_excelize_cells_keep_natural_type_witness :
    (∀ f ∈ salaryVal 1 1000 (timeVal 5 7) (timeVal 5 7),
        ((f.2.2) : GoValue).isValid = true)
    ∧ getRowsItem 0 (salaryVal 1 1000 (timeVal 5 7) (timeVal 5 7))
        = .ok ((salaryVal 1 1000 (timeVal 5 7) (timeVal 5 7)).map
            fun f => f.2.2) :=
  ⟨by decide,
   c5_excelize_cells_keep_natural_type
     (salaryVal 1 1000 (timeVal 5 7) (timeVal 5 7)) (by decide)⟩

/-- Claim C8: the sequential `addRows` the part_001 handler runs
(`addRows(sheet, shows)`, not the unused goroutine variant) hands the
sink one data row per record, in input order: the grid has as many
data rows as records and row `i` is exactly the projection
(`rowCells`) of record `i`, for every index. -/
theorem c8_rows_appear_in_input_order (shows : List GoStructVal)
    (i : Nat) :
    (addRowsShows shows).length = shows.length
    ∧ (addRowsShows shows)[i]? = (shows[i]?).map rowCells := by
  refine ⟨addRowsShows_length shows, ?_⟩
  induction shows generalizing i with
  | nil => simp [addRowsShows]
  | cons s ss ih =>
      cases i with
      | zero => simp [addRowsShows]
      | succ n => simpa [addRowsShows] using ih n
